import Mathlib

/-!
# Verification of Research_Analyser core logic

Shallow embedding of the `research_analyser` Python package:
* `reviewer.py` — scoring formula and decision-band interpretation,
* `ocr_engine.py` — equation / table extraction from OCR markdown,
* `diagram_generator.py` — diagram generation with matplotlib fallback,
* `analyser.py` — orchestrator fan-out and summary cascades.

Python `float` arithmetic is modelled by exact rationals (`ℚ`); Python
strings by `String` / `List Char`; external service calls by explicit
`Except String` outcomes; file-system writes by lists of written paths.
-/

namespace ResearchAnalyser

/-! ## reviewer.py — scoring constants and pure scoring functions -/

/-- Scoring-formula intercept (`reviewer.py`, `INTERCEPT = -0.3057`). -/
def INTERCEPT : ℚ := -3057/10000

/-- Source: `WEIGHT_SOUNDNESS = 0.7134`. -/
def WEIGHT_SOUNDNESS : ℚ := 7134/10000

/-- Source: `WEIGHT_PRESENTATION = 0.4242`. -/
def WEIGHT_PRESENTATION : ℚ := 4242/10000

/-- Source: `WEIGHT_CONTRIBUTION = 1.0588`. -/
def WEIGHT_CONTRIBUTION : ℚ := 10588/10000

/-- Source: `SCORE_LABELS` dict of `reviewer.py`, in insertion (iteration) order:
half-open bands `(low, high)` mapped to decision labels. -/
def SCORE_LABELS : List ((ℚ × ℚ) × String) :=
  [((1, 3), "Strong Reject"),
   ((3, 4), "Reject"),
   ((4, 5), "Weak Reject"),
   ((5, 6), "Borderline"),
   ((6, 7), "Weak Accept"),
   ((7, 8), "Accept"),
   ((8, 10), "Strong Accept")]

/-- Source: `interpret_score`: first band `(low, high)` with `low <= score < high` wins
(dict iteration order); otherwise `"Strong Accept"` for `score >= 8.0`,
else `"Unknown"`. -/
def interpret_score (score : ℚ) : String :=
  match SCORE_LABELS.find? (fun p => decide (p.1.1 ≤ score) && decide (score < p.1.2)) with
  | some p => p.2
  | none => if 8 ≤ score then "Strong Accept" else "Unknown"

/-- Source: `compute_final_score`: `raw = INTERCEPT + wS*S + wP*P + wC*C`, clamped to
`[1, 10]` by `max(1.0, min(10.0, raw))`. -/
def compute_final_score (soundness presentation contribution : ℚ) : ℚ :=
  let raw := INTERCEPT + WEIGHT_SOUNDNESS * soundness
    + WEIGHT_PRESENTATION * presentation + WEIGHT_CONTRIBUTION * contribution
  max 1 (min 10 raw)

/-! ## Equation-id formatting

`ocr_engine.py` formats equation ids with the Python f-string `f"eq_{n:03d}"`:
the decimal digits of `n`, left-padded with `'0'` to width 3, after the
prefix `"eq_"`.  `decodeEqId` reads the numeric part back. -/

/-- Decimal digit to its ASCII character (the `d` conversion of `{n:03d}`). -/
def digitChar (d : ℕ) : Char :=
  match d with
  | 0 => '0' | 1 => '1' | 2 => '2' | 3 => '3' | 4 => '4'
  | 5 => '5' | 6 => '6' | 7 => '7' | 8 => '8' | _ => '9'

/-- ASCII digit character back to its value (non-digits map to 0). -/
def charDigit (c : Char) : ℕ :=
  match c with
  | '0' => 0 | '1' => 1 | '2' => 2 | '3' => 3 | '4' => 4
  | '5' => 5 | '6' => 6 | '7' => 7 | '8' => 8 | '9' => 9 | _ => 0

/-- Little-endian decimal digits, by structural recursion on a fuel bound so
that it reduces inside the kernel (`Nat.digits` itself is well-founded). -/
def decDigitsAux : ℕ → ℕ → List ℕ
  | 0, _ => []
  | _, 0 => []
  | fuel + 1, n + 1 => ((n + 1) % 10) :: decDigitsAux fuel ((n + 1) / 10)

/-- Big-endian decimal digits of `n` (Python prints `0` as `"0"`). -/
def decDigits (n : ℕ) : List ℕ :=
  if n = 0 then [0] else (decDigitsAux n n).reverse

lemma decDigitsAux_eq_digits : ∀ fuel n, n ≤ fuel → decDigitsAux fuel n = Nat.digits 10 n := by
  intro fuel
  induction fuel with
  | zero => intro n hn; interval_cases n; simp [decDigitsAux, Nat.digits_zero]
  | succ f ih =>
    intro n hn
    match n with
    | 0 => simp [decDigitsAux, Nat.digits_zero]
    | m + 1 =>
      rw [decDigitsAux, Nat.digits_def' (by norm_num : 1 < 10) (Nat.succ_pos m)]
      congr 1
      exact ih ((m + 1) / 10) (by omega)

lemma decDigits_eq (n : ℕ) :
    decDigits n = if n = 0 then [0] else (Nat.digits 10 n).reverse := by
  unfold decDigits
  split
  · rfl
  · rw [decDigitsAux_eq_digits n n le_rfl]

/-- The character list of Python's `f"{n:03d}"`. -/
def pyFmt03 (n : ℕ) : List Char :=
  let ds := (decDigits n).map digitChar
  List.replicate (3 - ds.length) '0' ++ ds

/-- The id string `f"eq_{n:03d}"`. -/
def fmtEqId (n : ℕ) : String :=
  "eq_" ++ String.mk (pyFmt03 n)

/-- Numeric value of an equation id: drop the `"eq_"` prefix and read the
decimal digits. -/
def decodeEqId (s : String) : ℕ :=
  (s.data.drop 3).foldl (fun a c => 10 * a + charDigit c) 0

lemma charDigit_digitChar {d : ℕ} (hd : d < 10) : charDigit (digitChar d) = d := by
  interval_cases d <;> rfl

lemma decDigits_lt (n : ℕ) : ∀ d ∈ decDigits n, d < 10 := by
  intro d hd
  rw [decDigits_eq] at hd
  split at hd
  · simp at hd; omega
  · exact Nat.digits_lt_base (by norm_num) (List.mem_reverse.mp hd)

lemma foldl_digitChar (l : List ℕ) (h : ∀ d ∈ l, d < 10) (a : ℕ) :
    List.foldl (fun a c => 10 * a + charDigit c) a (l.map digitChar)
      = List.foldl (fun a d => 10 * a + d) a l := by
  induction l generalizing a with
  | nil => rfl
  | cons d tl ih =>
    simp only [List.map_cons, List.foldl_cons]
    rw [charDigit_digitChar (h d (by simp))]
    exact ih (fun x hx => h x (by simp [hx])) _

lemma foldl_replicate_zero (k : ℕ) :
    List.foldl (fun a c => 10 * a + charDigit c) 0 (List.replicate k '0') = 0 := by
  induction k with
  | zero => rfl
  | succ n ih => simpa [List.replicate_succ, charDigit] using ih

lemma foldr_ofDigits (l : List ℕ) :
    List.foldr (fun d a => 10 * a + d) 0 l = Nat.ofDigits 10 l := by
  induction l with
  | nil => simp [Nat.ofDigits]
  | cons d tl ih => simp [Nat.ofDigits_cons, ih]; ring

lemma foldl_decDigits (n : ℕ) :
    List.foldl (fun a d => 10 * a + d) 0 (decDigits n) = n := by
  rw [decDigits_eq]
  split
  · simp_all
  · rw [List.foldl_reverse]
    have := foldr_ofDigits (Nat.digits 10 n)
    simp only [this]
    exact Nat.ofDigits_digits 10 n

lemma decodeEqId_fmtEqId (n : ℕ) : decodeEqId (fmtEqId n) = n := by
  unfold decodeEqId fmtEqId
  rw [String.data_append]
  have hmk : (String.mk (pyFmt03 n)).data = pyFmt03 n := rfl
  have hd : ("eq_" : String).data = ['e', 'q', '_'] := rfl
  rw [hmk, hd]
  simp only [List.cons_append, List.nil_append, List.drop_succ_cons, List.drop_zero]
  unfold pyFmt03
  rw [List.foldl_append, foldl_replicate_zero,
    foldl_digitChar _ (decDigits_lt n), foldl_decDigits]

lemma fmtEqId_inj {a b : ℕ} (h : fmtEqId a = fmtEqId b) : a = b := by
  have := congrArg decodeEqId h
  rwa [decodeEqId_fmtEqId, decodeEqId_fmtEqId] at this

/-! ## Python string helpers -/

/-- Python `\s` / `str.strip()` whitespace (ASCII range). -/
def isPySpace (c : Char) : Bool :=
  c = ' ' || c = '\t' || c = '\n' || c = '\x0d' || c = '\x0c' || c = '\x0b'

/-- Python `str.strip()`. -/
def pyStrip (l : List Char) : List Char :=
  ((l.dropWhile isPySpace).reverse.dropWhile isPySpace).reverse

/-- Python slice `l[a:b]` for `0 ≤ a ≤ b` (`ℕ` truncation mirrors `max(0,·)`,
`take` beyond the length mirrors `min(len,·)`). -/
def pySlice (l : List Char) (a b : ℕ) : List Char :=
  (l.take b).drop a

/-- Python `sub in l` (substring containment). -/
def containsSub (sub : List Char) : List Char → Bool
  | [] => sub.isEmpty
  | c :: rest => sub.isPrefixOf (c :: rest) || containsSub sub rest

/-! ## Regex engines for the fixed patterns of `ocr_engine.py`

Each Python pattern is implemented directly as an executable matcher with
Python `re` semantics (leftmost scan, non-overlapping `finditer`, lazy
`(.+?)` = close-first, backtracking where it can fire).  Matchers carry
absolute `start`/`stop` positions because `extract_equations` uses
`match.start()`/`match.end()` for context windows and section lookup. -/

/-- One `finditer` match: `start()`, `end()`, `group(1)`. -/
structure RMatch where
  start : ℕ
  stop : ℕ
  group : List Char
deriving Repr, DecidableEq

/-- Lazy close search for `(.+?)close` (DOTALL): accumulated group `g`
(reversed, nonempty), try the literal `close` before consuming each char. -/
def closeSearch (close : List Char) : List Char → List Char → Option (List Char × List Char)
  | _, [] => none
  | g, c :: rest =>
    if close.isPrefixOf (c :: rest) then some (g.reverse, (c :: rest).drop close.length)
    else closeSearch close (c :: g) rest

/-- Try `open(.+?)close` (DOTALL) anchored at the head of `l`; returns
`(group, remainder after the match)`. -/
def tryDelim (op cl : List Char) (l : List Char) : Option (List Char × List Char) :=
  if op.isPrefixOf l then
    match l.drop op.length with
    | [] => none
    | c :: rest => closeSearch cl [c] rest
  else none

/-- Source: `finditer` for `open(.+?)close`: scan left to right, emit non-overlapping
matches, resume after each match.  `fuel` only bounds the recursion (the
scan strictly consumes input); callers pass `length + 1`. -/
def finditerDelimAux (op cl : List Char) : ℕ → ℕ → List Char → List RMatch
  | 0, _, _ => []
  | _, _, [] => []
  | fuel + 1, pos, c :: rest =>
    match tryDelim op cl (c :: rest) with
    | some (g, after) =>
      let consumed := (c :: rest).length - after.length
      ⟨pos, pos + consumed, g⟩ :: finditerDelimAux op cl fuel (pos + consumed) after
    | none => finditerDelimAux op cl fuel (pos + 1) rest

def finditerDelim (op cl : List Char) (text : List Char) : List RMatch :=
  finditerDelimAux op cl (text.length + 1) 0 text

/-- The five `DISPLAY_EQUATION_PATTERNS` of `ocr_engine.py`, in order:
`$$...$$`, `\[...\]`, `\begin{equation}...\end{equation}`,
`\begin{align}...\end{align}`, `\begin{gather}...\end{gather}`
(all `re.DOTALL`, all of the shape `open(.+?)close`). -/
def DISPLAY_EQUATION_PATTERNS : List (List Char × List Char) :=
  [("$$".data, "$$".data),
   ("\\[".data, "\\]".data),
   ("\\begin\x7bequation\x7d".data, "\\end\x7bequation\x7d".data),
   ("\\begin\x7balign\x7d".data, "\\end\x7balign\x7d".data),
   ("\\begin\x7bgather\x7d".data, "\\end\x7bgather\x7d".data)]

/-- Close search for the inline pattern `(?<!\$)\$(?!\$)(.+?)(?<!\$)\$(?!\$)`
(no DOTALL): at each boundary first try to close — next char `'$'`, last
group char not `'$'`, following char not `'$'` — else consume one
non-newline char into the group. -/
def inlineCloseSearch : List Char → List Char → Option (List Char × List Char)
  | _, [] => none
  | g, '$' :: rest =>
    if g.head? ≠ some '$' && rest.head? ≠ some '$' then some (g.reverse, rest)
    else inlineCloseSearch ('$' :: g) rest
  | g, c :: rest =>
    if c = '\n' then none else inlineCloseSearch (c :: g) rest

/-- Try the inline pattern anchored at the head of `l`; `prev` is the char
before `l` in the full text (for the opening `(?<!\$)`). -/
def tryInline (prev : Option Char) : List Char → Option (List Char × List Char)
  | '$' :: c :: rest =>
    if prev = some '$' then none
    else if c = '$' then none
    else if c = '\n' then none
    else inlineCloseSearch [c] rest
  | _ => none

def finditerInlineAux : ℕ → ℕ → Option Char → List Char → List RMatch
  | 0, _, _, _ => []
  | _, _, _, [] => []
  | fuel + 1, pos, prev, c :: rest =>
    match tryInline prev (c :: rest) with
    | some (g, after) =>
      let consumed := (c :: rest).length - after.length
      ⟨pos, pos + consumed, g⟩ :: finditerInlineAux fuel (pos + consumed) (some '$') after
    | none => finditerInlineAux fuel (pos + 1) (some c) rest

/-- Source: `INLINE_EQUATION_PATTERN.finditer`. -/
def finditerInline (text : List Char) : List RMatch :=
  finditerInlineAux (text.length + 1) 0 none text

/-- Source: `EQUATION_LABEL_PATTERN.search`: first position where
`\label{eq:` is followed by one or more non-`}` chars and a `}`;
the group includes the `eq:` prefix. -/
def labelSearch : List Char → Option (List Char)
  | [] => none
  | c :: rest =>
    let pre := "\\label\x7beq:".data
    let l := c :: rest
    if pre.isPrefixOf l then
      let r := l.drop pre.length
      let body := r.takeWhile (fun ch => ch ≠ '\x7d')
      if body.length ≥ 1 && (r.drop body.length).head? = some '\x7d' then
        some ("eq:".data ++ body)
      else labelSearch rest
    else labelSearch rest

/-! ### Section markers (`SECTION_HEADER_PATTERN`, `LATEX_SECTION_PATTERN`) -/

/-- Backtracking tail of `^(#{1,6})\s+(.+)$`: try the largest `\s+` width `w`
first; `(.+)` must then match at least one non-newline char up to `$`. -/
def headerBacktrack (l1 : List Char) : ℕ → Option (List Char × List Char)
  | 0 => none
  | w + 1 =>
    let s := l1.drop (w + 1)
    match s.head? with
    | some c =>
      if c ≠ '\n' then
        let g := s.takeWhile (fun ch => ch ≠ '\n')
        some (g, s.drop g.length)
      else headerBacktrack l1 w
    | none => headerBacktrack l1 w

/-- Try `^(#{1,6})\s+(.+)$` (MULTILINE) anchored at a line start:
returns `(group 2, remainder after the match)`. -/
def tryHeaderAt (l : List Char) : Option (List Char × List Char) :=
  let k := (l.takeWhile (fun ch => ch = '#')).length
  if 1 ≤ k && k ≤ 6 then
    let l1 := l.drop k
    let w := (l1.takeWhile isPySpace).length
    headerBacktrack l1 w
  else none

/-- Source: `SECTION_HEADER_PATTERN.finditer`: `^` fires at position 0 or after a
newline; matches are non-overlapping, scanning resumes at `match.end()`. -/
def finditerHeaderAux : ℕ → ℕ → Bool → List Char → List (ℕ × List Char)
  | 0, _, _, _ => []
  | _, _, _, [] => []
  | fuel + 1, pos, atLineStart, c :: rest =>
    if atLineStart then
      match tryHeaderAt (c :: rest) with
      | some (g, after) =>
        let consumed := (c :: rest).length - after.length
        (pos, g) :: finditerHeaderAux fuel (pos + consumed) false after
      | none => finditerHeaderAux fuel (pos + 1) (c = '\n') rest
    else finditerHeaderAux fuel (pos + 1) (c = '\n') rest

def finditerHeader (text : List Char) : List (ℕ × List Char) :=
  finditerHeaderAux (text.length + 1) 0 true text

/-- Consume a maximal run of literal `sub` repeats (`(?:sub)*`; greediness is
exact here since `section` and `sub` differ at their second char). -/
def dropSubs : ℕ → List Char → List Char
  | 0, r => r
  | fuel + 1, r =>
    if ("sub".data).isPrefixOf r then dropSubs fuel (r.drop 3) else r

/-- Try `\\(?:sub)*section\*?\{([^}]+)\}` anchored at the head of `l`. -/
def trySectionCmd (l : List Char) : Option (List Char × List Char) :=
  match l with
  | '\\' :: r0 =>
    let r1 := dropSubs r0.length r0
    if ("section".data).isPrefixOf r1 then
      let r2 := r1.drop 7
      let r3 := if r2.head? = some '*' then r2.drop 1 else r2
      match r3 with
      | '\x7b' :: r4 =>
        let body := r4.takeWhile (fun ch => ch ≠ '\x7d')
        if body.length ≥ 1 && (r4.drop body.length).head? = some '\x7d' then
          some (body, r4.drop (body.length + 1))
        else none
      | _ => none
    else none
  | _ => none

def finditerSectionCmdAux : ℕ → ℕ → List Char → List (ℕ × List Char)
  | 0, _, _ => []
  | _, _, [] => []
  | fuel + 1, pos, c :: rest =>
    match trySectionCmd (c :: rest) with
    | some (g, after) =>
      let consumed := (c :: rest).length - after.length
      (pos, g) :: finditerSectionCmdAux fuel (pos + consumed) after
    | none => finditerSectionCmdAux fuel (pos + 1) rest

/-- Source: `LATEX_SECTION_PATTERN.finditer`. -/
def finditerSectionCmd (text : List Char) : List (ℕ × List Char) :=
  finditerSectionCmdAux (text.length + 1) 0 text

/-! ## `OCREngine.extract_equations` -/

/-- Modelled from the spec: the `Equation` record of `research_analyser.models`
(the `models.py` file itself is not in the source tree):
`id (unique, monotonic), latex, context (± window around the match), section,
is_inline (bool), label (optional), description (derived)`. -/
structure Equation where
  id : String
  latex : String
  context : String
  «section» : String
  is_inline : Bool
  label : Option String := none
  description : String := ""
deriving Repr, DecidableEq

/-- Stable insertion by marker position (Python `list.sort(key=pos)`). -/
def insertByPos (x : ℕ × String) : List (ℕ × String) → List (ℕ × String)
  | [] => [x]
  | y :: ys => if x.1 ≤ y.1 then x :: y :: ys else y :: insertByPos x ys

def sortByPos : List (ℕ × String) → List (ℕ × String)
  | [] => []
  | x :: xs => insertByPos x (sortByPos xs)

/-- The merged, position-sorted section markers of `_find_containing_section`:
markdown headers (group 2, stripped) and LaTeX section commands (group 1,
stripped). -/
def sectionMarkers (text : List Char) : List (ℕ × String) :=
  sortByPos
    ((finditerHeader text).map (fun p => (p.1, String.mk (pyStrip p.2)))
      ++ (finditerSectionCmd text).map (fun p => (p.1, String.mk (pyStrip p.2))))

/-- The scan loop of `_find_containing_section`: walk the sorted markers,
remember the last one, break at the first marker past `position`. -/
def lastMarkerLE (position : ℕ) (last : String) : List (ℕ × String) → String
  | [] => last
  | (p, t) :: ms => if p > position then last else lastMarkerLE position t ms

/-- Source: `OCREngine._find_containing_section`. -/
def findContainingSection (text : List Char) (position : ℕ) : String :=
  lastMarkerLE position "Preamble" (sectionMarkers text)

/-- Source: `OCREngine._describe_equation_relevance`. -/
def describeEquationRelevance (latex : String) (sectionName : String) : String :=
  let lower := latex.data.map Char.toLower
  let hasAny (ts : List String) : Bool := ts.any (fun t => containsSub t.data lower)
  let roleExample : String × String :=
    if hasAny ["\\int", "\\sum", "\\prod"] then
      ("aggregates contributions across components",
       "computing total system energy or accumulated force over elements")
    else if hasAny ["\\dot", "\\ddot", "\\partial", "d/"] then
      ("captures dynamic rate-of-change behavior",
       "updating velocities/accelerations during time integration")
    else if hasAny ["=", "\\mathbf", "\\mathbf\x7br\x7d", "\\mathbf\x7bn\x7d"] then
      ("defines a core state or transformation relationship",
       "mapping element coordinates to world coordinates in simulation")
    else
      ("formalizes a mathematical relationship used by the method",
       "implementing the same formula in a numerical solver")
  "Relevance: In section '" ++ sectionName ++ "', this equation " ++ roleExample.1
    ++ ". Potential use: " ++ roleExample.2 ++ "."

/-- Build a display-pass `Equation` from match `m` with counter value `c`. -/
def mkDisplayEq (text : List Char) (c : ℕ) (m : RMatch) : Equation :=
  let latex := pyStrip m.group
  let context := pyStrip (pySlice text (m.start - 100) (m.stop + 100))
  let sec := findContainingSection text m.start
  { id := fmtEqId c
    latex := String.mk latex
    context := String.mk context
    «section» := sec
    is_inline := false
    label := (labelSearch latex).map String.mk
    description := describeEquationRelevance (String.mk latex) sec }

/-- Build an inline-pass `Equation` (no `label` argument in the source call,
so it keeps its default `None`). -/
def mkInlineEq (text : List Char) (c : ℕ) (m : RMatch) : Equation :=
  let latex := pyStrip m.group
  let context := pyStrip (pySlice text (m.start - 100) (m.stop + 100))
  let sec := findContainingSection text m.start
  { id := fmtEqId c
    latex := String.mk latex
    context := String.mk context
    «section» := sec
    is_inline := true
    label := none
    description := describeEquationRelevance (String.mk latex) sec }

/-- All display matches, pattern by pattern in `DISPLAY_EQUATION_PATTERNS`
order (the source's nested `for pattern ... for match ...`). -/
def displayMatches (text : List Char) : List RMatch :=
  DISPLAY_EQUATION_PATTERNS.flatMap (fun p => finditerDelim p.1 p.2 text)

/-- The display loop: `eq_counter` is incremented before each append. -/
def numberDisplay (text : List Char) (c : ℕ) : List RMatch → List Equation
  | [] => []
  | m :: ms => mkDisplayEq text (c + 1) m :: numberDisplay text (c + 1) ms

/-- The inline loop: `eq_counter` is incremented first; matches whose
stripped latex is shorter than 3 chars are then skipped (`continue`). -/
def numberInline (text : List Char) (c : ℕ) : List RMatch → List Equation
  | [] => []
  | m :: ms =>
    if (pyStrip m.group).length < 3 then numberInline text (c + 1) ms
    else mkInlineEq text (c + 1) m :: numberInline text (c + 1) ms

/-- Source: `OCREngine.extract_equations`. -/
def extract_equations (markdown_text : String) : List Equation :=
  let t := markdown_text.data
  numberDisplay t 0 (displayMatches t)
    ++ numberInline t (displayMatches t).length (finditerInline t)

/-! ## `OCREngine.extract_tables` -/

/-- Modelled from the spec: a MonkeyOCR layout block — a dict read only via
`block.get(...)`, so every key is optional. -/
structure Block where
  type : Option String := none
  content : Option String := none
  caption : Option String := none
  «section» : Option String := none
  page : Option ℕ := none
deriving Repr, DecidableEq

/-- Modelled from the spec: the `Table` record of `research_analyser.models`
(`id, content, caption (optional), section`; the markdown fallback also
fills `rows`/`cols`, which the block path leaves unset). -/
structure Table where
  id : String
  content : String
  caption : Option String := none
  «section» : String := ""
  rows : Option ℕ := none
  cols : Option ℕ := none
deriving Repr, DecidableEq

/-- The id string `f"table_{n:03d}"`. -/
def fmtTableId (n : ℕ) : String :=
  "table_" ++ String.mk (pyFmt03 n)

/-- The block loop of `extract_tables`: keep blocks whose `type` is one of
`("table", "table_body", "table_caption")`, numbering them as they come. -/
def primaryTablesAux (counter : ℕ) : List Block → List Table
  | [] => []
  | b :: bs =>
    if b.type.getD "" ∈ ["table", "table_body", "table_caption"] && b.type.isSome then
      { id := fmtTableId (counter + 1)
        content := b.content.getD ""
        caption := b.caption
        «section» := b.«section».getD "" } :: primaryTablesAux (counter + 1) bs
    else primaryTablesAux counter bs

def primaryTables (blocks : List Block) : List Table :=
  primaryTablesAux 0 blocks

/-- Source: `"|" in line and line.strip().startswith("|")`. -/
def isTableLine (l : List Char) : Bool :=
  containsSub ['|'] l && (pyStrip l).head? = some '|'

/-- The separator-row pattern `^\s*\|[\s\-\|:]+\|\s*$`: after stripping the
surrounding whitespace, a `|`, then one or more chars from
`[\s\-\|:]`, then a final `|`. -/
def isSepLine (l : List Char) : Bool :=
  match pyStrip l with
  | '|' :: rest =>
    rest.length ≥ 2 && rest.getLast? = some '|'
      && (rest.take (rest.length - 1)).all
          (fun c => isPySpace c || c = '-' || c = '|' || c = ':')
  | _ => false

/-- Source: `\*?\*?`: consume up to two literal stars. -/
def dropUpTo2Stars : List Char → List Char
  | '*' :: '*' :: rest => rest
  | '*' :: rest => rest
  | rest => rest

/-- Source: `(?:Table|Tab\.?)` under `re.IGNORECASE`: the `Table` branch first, else
`Tab` with an optional dot. -/
def matchTableWord (l : List Char) : Option (List Char) :=
  if ("table".data).isPrefixOf (l.map Char.toLower) then some (l.drop 5)
  else if ("tab".data).isPrefixOf (l.map Char.toLower) then
    let r := l.drop 3
    some (if r.head? = some '.' then r.drop 1 else r)
  else none

/-- Source: `re.match(r"^\*?\*?(?:Table|Tab\.?)\s*\d+[.:]\*?\*?\s*(.+)", line, I)` on a
stripped line; returns group 1.  The final `\s*` backtracks so that `(.+)`
gets at least one char — since the line is stripped, dropping the maximal
whitespace run always leaves it nonempty when anything remains. -/
def pyCaptionMatch (line : List Char) : Option (List Char) :=
  match matchTableWord (dropUpTo2Stars line) with
  | none => none
  | some r1 =>
    let r2 := r1.dropWhile isPySpace
    let ds := r2.takeWhile Char.isDigit
    if ds.isEmpty then none
    else
      match r2.drop ds.length with
      | c :: r3 =>
        if c = '.' || c = ':' then
          let r4 := dropUpTo2Stars r3
          match r4.dropWhile isPySpace with
          | [] => none
          | g => some g
        else none
      | [] => none

/-- The inner `while` of `_extract_tables_from_markdown`: collect the maximal
run of contiguous table lines. -/
def collectTableLines : List (List Char) → List (List Char) × List (List Char)
  | [] => ([], [])
  | l :: ls =>
    if isTableLine l then
      let p := collectTableLines ls
      (l :: p.1, p.2)
    else ([], l :: ls)

/-- Join lines with `"\n"` (Python `"\n".join`). -/
def joinLines : List (List Char) → List Char
  | [] => []
  | [l] => l
  | l :: ls => l ++ '\n' :: joinLines ls

/-- The outer `while` of `_extract_tables_from_markdown`: a collected run is
a table only if it has `>= 3` lines and line 1 is a valid separator row;
`rows = len(table_lines) - 2`, `cols = header.count("|") - 1`, caption
sniffed from the first line after the run. -/
def scanMdTables : ℕ → ℕ → List (List Char) → List Table
  | 0, _, _ => []
  | _, _, [] => []
  | fuel + 1, counter, l :: ls =>
    if isTableLine l then
      let p := collectTableLines (l :: ls)
      let tls := p.1
      let rest := p.2
      if tls.length ≥ 3 && isSepLine (tls[1]?.getD []) then
        let caption := match rest with
          | [] => none
          | r :: _ => pyCaptionMatch (pyStrip r)
        { id := fmtTableId (counter + 1)
          content := String.mk (joinLines tls)
          caption := caption.map String.mk
          rows := some (tls.length - 2)
          cols := some ((tls.headD []).count '|' - 1) } :: scanMdTables fuel (counter + 1) rest
      else scanMdTables fuel counter rest
    else scanMdTables fuel counter ls

/-- Python `text.split("\n")` (structural, so it reduces in the kernel). -/
def splitLinesAux (acc : List Char) : List Char → List (List Char)
  | [] => [acc.reverse]
  | '\n' :: rest => acc.reverse :: splitLinesAux [] rest
  | c :: rest => splitLinesAux (c :: acc) rest

def splitLines (l : List Char) : List (List Char) :=
  splitLinesAux [] l

/-- Source: `OCREngine._extract_tables_from_markdown`. -/
def extractTablesFromMarkdown (text : String) : List Table :=
  let lines := splitLines text.data
  scanMdTables (lines.length + 1) 0 lines

/-- Source: `OCREngine.extract_tables`: block-derived tables, with the markdown
fallback used exactly when the block pass found nothing and the markdown
text is non-empty. -/
def extract_tables (blocks : List Block) (markdown_text : String) : List Table :=
  let tables := primaryTables blocks
  if tables.isEmpty && markdown_text ≠ "" then extractTablesFromMarkdown markdown_text
  else tables

/-! ## Document model (`research_analyser.models`, modelled from the spec) -/

/-- Modelled from the spec: `Section`: `title, level (1..6), content`. -/
structure Section where
  title : String
  level : ℕ := 1
  content : String := ""
deriving Repr, DecidableEq

/-- Modelled from the spec: `Figure`: `id, image_path, caption, section, page`. -/
structure Figure where
  id : String := ""
  image_path : Option String := none
  caption : Option String := none
  «section» : String := ""
  page : ℕ := 0
deriving Repr, DecidableEq

/-- Modelled from the spec: `Reference`: `id, text`. -/
structure Reference where
  id : String
  text : String
deriving Repr, DecidableEq

/-- Modelled from the spec: the extracted `Document`:
`title, authors[], abstract, full_text, sections[], equations[], tables[],
figures[], references[], metadata{}`. -/
structure ExtractedContent where
  full_text : String := ""
  title : String := ""
  authors : List String := []
  abstract : String := ""
  sections : List Section := []
  equations : List Equation := []
  tables : List Table := []
  figures : List Figure := []
  references : List Reference := []
deriving Repr, DecidableEq

/-- Modelled from the spec: `ReviewResult` (`PeerReview` in the code):
`overall_score, confidence, dimensions, strengths[], weaknesses[],
related_works[], raw_text`.  Dimensions are kept as name/score/weight
triples; related works as title strings. -/
structure PeerReview where
  overall_score : ℚ
  confidence : ℚ := 3
  dimensions : List (String × ℚ × ℚ) := []
  strengths : List String := []
  weaknesses : List String := []
  suggestions : List String := []
  related_works : List String := []
  raw_review : String := ""
deriving Repr, DecidableEq

/-! ## `DiagramGenerator` (`diagram_generator.py`)

The PaperBanana service call is an opaque external collaborator: it is
modelled as an `Except String PBResult` outcome per diagram type — either a
raised exception with its `str(exc)` text, or a result whose rendered
artifact may or may not exist on disk.  File-system effects are modelled by
returning the list of paths written. -/

/-- Outcome of a successful `pipeline.generate(...)` call. -/
structure PBResult where
  image_path : String
  image_exists : Bool := true
  iterations : ℕ := 1
deriving Repr, DecidableEq

/-- Modelled from the spec: `GeneratedDiagram`:
`diagram_type, image_path, caption, source_context, iterations, format,
is_fallback (bool), error (optional)` — the empty string standing for an
absent error. -/
structure GeneratedDiagram where
  diagram_type : String
  image_path : String
  caption : String := ""
  source_context : String := ""
  iterations : ℕ := 1
  format : String := "png"
  is_fallback : Bool := false
  error : String := ""
deriving Repr, DecidableEq

/-- Python `str.title()` (a letter is uppercased after a non-letter,
lowercased otherwise) — used in the diagram captions. -/
def pyTitleAux : Bool → List Char → List Char
  | _, [] => []
  | prevAlpha, c :: rest =>
    (if c.isAlpha then (if prevAlpha then c.toLower else c.toUpper) else c)
      :: pyTitleAux c.isAlpha rest

def pyTitle (s : String) : String :=
  String.mk (pyTitleAux false s.data)

/-- Python `a or b` on strings: `b` when `a` is empty. -/
def pyOr (a b : String) : String :=
  if a = "" then b else a

/-- Python `s[:n]`. -/
def pyTake (s : String) (n : ℕ) : String :=
  String.mk (s.data.take n)

/-- Source: `DiagramGenerator._find_section_content`: join (with `"\n\n"`) the
contents of sections whose lowercased title contains any keyword. -/
def findSectionContent (content : ExtractedContent) (keywords : List String) : String :=
  let matching := (content.sections.filter
    (fun s => keywords.any (fun kw => containsSub kw.data (s.title.data.map Char.toLower)))).map
    (fun s => s.content)
  if matching.isEmpty then "" else String.intercalate "\n\n" matching

/-- Source: `output_path = self.output_dir / f"{diagram_type}.{self.output_format}"`. -/
def outputPath (output_dir diagram_type output_format : String) : String :=
  output_dir ++ "/" ++ diagram_type ++ "." ++ output_format

/-- Source: `DiagramGenerator._generate_fallback_diagram`: build the local matplotlib
diagram (its rendered pixels are outside the model; the observable effects
are the write of the image file at `output_path` and the returned record
with `is_fallback=True` and the captured `error` text). -/
def generateFallbackDiagram (output_dir output_format diagram_type title source_context
    error : String) : GeneratedDiagram × List String :=
  let path := outputPath output_dir diagram_type output_format
  ({ diagram_type := diagram_type
     image_path := path
     caption := pyTitle diagram_type ++ " overview (local fallback): " ++ title
     source_context := pyTake source_context 500
     iterations := 1
     format := output_format
     is_fallback := true
     error := error }, [path])

/-- Source: `DiagramGenerator._run_pipeline`: run the external pipeline; on success
copy its artifact to `output_path` (raising — hence falling back — when the
artifact is missing); on any exception return the fallback diagram carrying
`str(exc)`. -/
def runPipeline (output_dir output_format diagram_type : String)
    (content : ExtractedContent) (context : String)
    (ext : Except String PBResult) : GeneratedDiagram × List String :=
  let path := outputPath output_dir diagram_type output_format
  match ext with
  | Except.ok result =>
    if result.image_exists then
      ({ diagram_type := diagram_type
         image_path := path
         caption := pyTitle diagram_type ++ " diagram: " ++ content.title
         source_context := pyTake context 500
         iterations := if result.iterations = 0 then 1 else result.iterations
         format := output_format
         is_fallback := false
         error := "" }, [path])
    else
      generateFallbackDiagram output_dir output_format diagram_type content.title context
        ("PaperBanana output file not found: " ++ result.image_path)
  | Except.error e =>
    generateFallbackDiagram output_dir output_format diagram_type content.title context e

/-- Context selection of `generate_methodology`. -/
def methodologyContext (content : ExtractedContent) : String :=
  pyOr (pyOr (findSectionContent content ["method", "approach", "framework", "model", "proposed"])
    content.abstract) (pyTake content.full_text 2000)

/-- Context selection of `generate_architecture`. -/
def architectureContext (content : ExtractedContent) : String :=
  pyOr (pyOr (findSectionContent content ["architecture", "model", "system", "design", "structure"])
    content.abstract) (pyTake content.full_text 2000)

/-- Context selection of `generate_results_plot`. -/
def resultsContext (content : ExtractedContent) : String :=
  pyOr (pyOr (findSectionContent content ["results", "experiments", "evaluation", "performance"])
    content.abstract) (pyTake content.full_text 2000)

/-- The `match dtype` dispatch of `DiagramGenerator.generate._run_one`: a
recognized type runs `_run_pipeline` (which never raises — every exception
is converted to a fallback diagram); an unknown type logs a warning and
returns `None`.  `exts` gives each type's external-call outcome. -/
def runOne (output_dir output_format : String) (content : ExtractedContent)
    (exts : String → Except String PBResult) :
    String → Option (GeneratedDiagram × List String)
  | "methodology" =>
    some (runPipeline output_dir output_format "methodology" content
      (methodologyContext content) (exts "methodology"))
  | "architecture" =>
    some (runPipeline output_dir output_format "architecture" content
      (architectureContext content) (exts "architecture"))
  | "results" =>
    some (runPipeline output_dir output_format "results" content
      (resultsContext content) (exts "results"))
  | _ => none

/-- Source: `DiagramGenerator.generate`: fan out one task per requested type, then
collect — exceptions would be dropped by `return_exceptions=True`, `None`
results (unknown types) are skipped, everything else is kept in task
order.  Returns the diagrams and all written paths. -/
def generate (output_dir output_format : String) (content : ExtractedContent)
    (diagram_types : List String) (exts : String → Except String PBResult) :
    List GeneratedDiagram × List String :=
  diagram_types.foldr (fun dtype acc =>
    match runOne output_dir output_format content exts dtype with
    | some p => (p.1 :: acc.1, p.2 ++ acc.2)
    | none => acc) ([], [])

/-! ## `ResearchAnalyser.analyse` fan-out (`analyser.py`) -/

/-- Result shape of one fan-out task: the diagram branch yields a `list`,
the review branch a `PeerReview` — the collector dispatches on exactly this
shape (`isinstance(result, list)`). -/
inductive FanResult where
  | diagrams (ds : List GeneratedDiagram)
  | review (r : PeerReview)
deriving Repr, DecidableEq

/-- The task list built by `analyse` step 4 and awaited with
`asyncio.gather(*tasks, return_exceptions=True)`: the diagram task is
appended when `options.generate_diagrams`, then the review task when
`options.generate_review`; a raised exception is materialised as an
`Except.error` entry instead of propagating. -/
def gatherFanOut (generate_diagrams generate_review : Bool)
    (diagTask : Except String (List GeneratedDiagram))
    (revTask : Except String PeerReview) : List (Except String FanResult) :=
  (if generate_diagrams then [diagTask.map FanResult.diagrams] else [])
    ++ (if generate_review then [revTask.map FanResult.review] else [])

/-- The collection loop of `analyse`: start from `diagrams = []`,
`review = None`; an exception is logged and skipped, a list result replaces
`diagrams`, anything else replaces `review`. -/
def collectFanOut (results : List (Except String FanResult)) :
    List GeneratedDiagram × Option PeerReview :=
  results.foldl (fun acc r =>
    match r with
    | Except.error _ => acc
    | Except.ok (FanResult.diagrams ds) => (ds, acc.2)
    | Except.ok (FanResult.review rv) => (acc.1, some rv)) ([], none)

/-! ## Summary cascades (`analyser.py`) -/

/-- Source: `_distinct(text)`: non-blank after stripping, and its first 200 chars
differ from the (stripped) abstract's first 200 chars. -/
def distinctFromAbstract (abstract : List Char) (text : List Char) : Bool :=
  let t := pyStrip text
  !t.isEmpty && t.take 200 ≠ abstract.take 200

/-- One keyword-guarded scan loop of the cascades: the first section passing
the guard whose stripped 500-char content slice is `_distinct` wins; a
section passing the guard but failing `_distinct` is skipped and the scan
continues. -/
def tierScan (abstract : List Char) (p : Section → Bool) : List Section → Option (List Char)
  | [] => none
  | s :: ss =>
    if p s then
      let text := pyStrip (s.content.data.take 500)
      if distinctFromAbstract abstract text then some text else tierScan abstract p ss
    else tierScan abstract p ss

def METHOD_TITLE_KWS : List String :=
  ["method", "approach", "proposed", "framework", "technique",
   "model", "algorithm", "system", "design", "pipeline",
   "architecture", "contribution", "formulation", "solution",
   "overview", "our "]

def METHOD_CONTENT_KWS : List String :=
  ["we propose", "we present", "our method", "our approach",
   "the proposed", "algorithm", "architecture", "pipeline",
   "formulation", "framework"]

def RESULTS_TITLE_KWS : List String :=
  ["result", "experiment", "evaluation", "performance",
   "benchmark", "comparison", "analysis", "ablation",
   "finding", "quantitative", "accuracy", "discussion"]

def RESULTS_CONTENT_KWS : List String :=
  ["table", "accuracy", "f1", "precision", "recall",
   "outperforms", "baseline", "state-of-the-art", "sota",
   "improvement", "score", "metric", "% "]

/-- Keyword-in-lowercased-title guard. -/
def titleHasKw (kws : List String) (s : Section) : Bool :=
  kws.any (fun kw => containsSub kw.data (s.title.data.map Char.toLower))

/-- Keyword-in-lowercased-content guard. -/
def contentHasKw (kws : List String) (s : Section) : Bool :=
  kws.any (fun kw => containsSub kw.data (s.content.data.map Char.toLower))

/-- Tiers 1–3 of `_extract_methodology_summary` (title keywords, content
keywords, positional window `sections[1:5]`). -/
def methodologyTier123 (content : ExtractedContent) : Option (List Char) :=
  let abstract := pyStrip content.abstract.data
  (tierScan abstract (titleHasKw METHOD_TITLE_KWS) content.sections).orElse (fun _ =>
    (tierScan abstract (contentHasKw METHOD_CONTENT_KWS) content.sections).orElse (fun _ =>
      if content.sections.length > 1 then
        tierScan abstract (fun _ => true) ((content.sections.drop 1).take 4)
      else none))

/-- Source: `ResearchAnalyser._extract_methodology_summary`: tiers 1–3, then the
unguarded full-text offset slice `full_text[1000:1500]`, then the abstract
itself (`abstract[:500]`), then `""`. -/
def extractMethodologySummary (content : ExtractedContent) : String :=
  let abstract := pyStrip content.abstract.data
  match methodologyTier123 content with
  | some t => String.mk t
  | none =>
    if content.full_text.data.length > 1000 then
      String.mk (pyStrip (pySlice content.full_text.data 1000 1500))
    else if abstract ≠ [] then String.mk (abstract.take 500)
    else ""

/-- Tiers 1–3 of `_extract_results_summary` (title keywords, content
keywords over the back half `sections[mid:]`, positional scan backwards
over `sections[:-1]`). -/
def resultsTier123 (content : ExtractedContent) : Option (List Char) :=
  let abstract := pyStrip content.abstract.data
  (tierScan abstract (titleHasKw RESULTS_TITLE_KWS) content.sections).orElse (fun _ =>
    (tierScan abstract (contentHasKw RESULTS_CONTENT_KWS)
        (content.sections.drop (content.sections.length / 2))).orElse (fun _ =>
      if content.sections.length ≥ 3 then
        tierScan abstract (fun _ => true) content.sections.dropLast.reverse
      else none))

/-- Source: `ResearchAnalyser._extract_results_summary`: tiers 1–3, then the
unguarded full-text slices `full_text[-1500:-1000]` / `full_text[-500:]`,
then `""`. -/
def extractResultsSummary (content : ExtractedContent) : String :=
  match resultsTier123 content with
  | some t => String.mk t
  | none =>
    if content.full_text.data.length > 2000 then
      String.mk (pyStrip (pySlice content.full_text.data
        (content.full_text.data.length - 1500) (content.full_text.data.length - 1000)))
    else if content.full_text.data.length > 500 then
      String.mk (pyStrip (pySlice content.full_text.data
        (content.full_text.data.length - 500) content.full_text.data.length))
    else ""

/-! ## Theorems -/

/-- On the valid domain the clamp of `compute_final_score` never binds: the
score equals the raw affine form. -/
lemma compute_eq_raw (s p c : ℚ) (hs1 : 1 ≤ s) (hs4 : s ≤ 4) (hp1 : 1 ≤ p) (hp4 : p ≤ 4)
    (hc1 : 1 ≤ c) (hc4 : c ≤ 4) :
    compute_final_score s p c
      = INTERCEPT + WEIGHT_SOUNDNESS * s + WEIGHT_PRESENTATION * p + WEIGHT_CONTRIBUTION * c := by
  have h1 : (1:ℚ) ≤ INTERCEPT + WEIGHT_SOUNDNESS * s + WEIGHT_PRESENTATION * p
      + WEIGHT_CONTRIBUTION * c := by
    unfold INTERCEPT WEIGHT_SOUNDNESS WEIGHT_PRESENTATION WEIGHT_CONTRIBUTION
    linarith
  have h10 : INTERCEPT + WEIGHT_SOUNDNESS * s + WEIGHT_PRESENTATION * p
      + WEIGHT_CONTRIBUTION * c ≤ 10 := by
    unfold INTERCEPT WEIGHT_SOUNDNESS WEIGHT_PRESENTATION WEIGHT_CONTRIBUTION
    linarith
  simp only [compute_final_score]
  rw [min_eq_right h10, max_eq_right h1]

/-- C3: `interpret_score` partitions scores into seven half-open decision
bands from "Strong Reject" on `[1,3)` to "Strong Accept" on `[8,10]`, every
boundary value belonging to the higher band: inputs exactly 3.0, 4.0, 5.0,
6.0, 7.0, 8.0 map to "Reject", "Weak Reject", "Borderline", "Weak Accept",
"Accept", "Strong Accept" respectively. -/
theorem interpret_score_bands :
    interpret_score 3 = "Reject" ∧ interpret_score 4 = "Weak Reject" ∧
    interpret_score 5 = "Borderline" ∧ interpret_score 6 = "Weak Accept" ∧
    interpret_score 7 = "Accept" ∧ interpret_score 8 = "Strong Accept" ∧
    (∀ s : ℚ, 1 ≤ s → s < 3 → interpret_score s = "Strong Reject") ∧
    (∀ s : ℚ, 3 ≤ s → s < 4 → interpret_score s = "Reject") ∧
    (∀ s : ℚ, 4 ≤ s → s < 5 → interpret_score s = "Weak Reject") ∧
    (∀ s : ℚ, 5 ≤ s → s < 6 → interpret_score s = "Borderline") ∧
    (∀ s : ℚ, 6 ≤ s → s < 7 → interpret_score s = "Weak Accept") ∧
    (∀ s : ℚ, 7 ≤ s → s < 8 → interpret_score s = "Accept") ∧
    (∀ s : ℚ, 8 ≤ s → s ≤ 10 → interpret_score s = "Strong Accept") := by
  refine ⟨by decide, by decide, by decide, by decide, by decide, by decide, ?_, ?_, ?_, ?_, ?_, ?_, ?_⟩
  · intro s h1 h2
    simp [interpret_score, SCORE_LABELS, h1, h2]
  · intro s h1 h2
    have c1 : ¬ (s < 3) := by linarith
    simp [interpret_score, SCORE_LABELS, c1, h1, h2]
  · intro s h1 h2
    have c1 : ¬ (s < 3) := by linarith
    have c2 : ¬ (s < 4) := by linarith
    simp [interpret_score, SCORE_LABELS, c1, c2, h1, h2]
  · intro s h1 h2
    have c1 : ¬ (s < 3) := by linarith
    have c2 : ¬ (s < 4) := by linarith
    have c3 : ¬ (s < 5) := by linarith
    simp [interpret_score, SCORE_LABELS, c1, c2, c3, h1, h2]
  · intro s h1 h2
    have c1 : ¬ (s < 3) := by linarith
    have c2 : ¬ (s < 4) := by linarith
    have c3 : ¬ (s < 5) := by linarith
    have c4 : ¬ (s < 6) := by linarith
    simp [interpret_score, SCORE_LABELS, c1, c2, c3, c4, h1, h2]
  · intro s h1 h2
    have c1 : ¬ (s < 3) := by linarith
    have c2 : ¬ (s < 4) := by linarith
    have c3 : ¬ (s < 5) := by linarith
    have c4 : ¬ (s < 6) := by linarith
    have c5 : ¬ (s < 7) := by linarith
    simp [interpret_score, SCORE_LABELS, c1, c2, c3, c4, c5, h1, h2]
  · intro s h1 h2
    have c1 : ¬ (s < 3) := by linarith
    have c2 : ¬ (s < 4) := by linarith
    have c3 : ¬ (s < 5) := by linarith
    have c4 : ¬ (s < 6) := by linarith
    have c5 : ¬ (s < 7) := by linarith
    have c6 : ¬ (s < 8) := by linarith
    by_cases h10 : s < 10
    · simp [interpret_score, SCORE_LABELS, c1, c2, c3, c4, c5, c6, h1, h10]
    · simp [interpret_score, SCORE_LABELS, c1, c2, c3, c4, c5, c6, h1, h10]

/-- Witness for C3: the universal band statements applied at concrete scores. -/
theorem interpret_score_bands_witness :
    interpret_score (5/2) = "Strong Reject" ∧ interpret_score (17/2) = "Strong Accept" :=
  ⟨(interpret_score_bands).2.2.2.2.2.2.1 (5/2) (by norm_num) (by norm_num),
   (interpret_score_bands).2.2.2.2.2.2.2.2.2.2.2.2 (17/2) (by norm_num) (by norm_num)⟩

/-- C4: on the valid domain `[1,4]³`, a one-unit increase in one dimension
(staying inside the domain) changes `compute_final_score` by exactly the
corresponding weight — 1.0588 for contribution, 0.7134 for soundness,
0.4242 for presentation — so contribution's per-unit effect exceeds
soundness's, which exceeds presentation's; the clamp to `[1,10]` never binds
on this domain. -/
theorem score_delta_weights (s p c : ℚ) (hs1 : 1 ≤ s) (hs4 : s ≤ 4) (hp1 : 1 ≤ p) (hp4 : p ≤ 4)
    (hc1 : 1 ≤ c) (hc4 : c ≤ 4) :
    (s + 1 ≤ 4 → compute_final_score (s + 1) p c - compute_final_score s p c = WEIGHT_SOUNDNESS) ∧
    (p + 1 ≤ 4 → compute_final_score s (p + 1) c - compute_final_score s p c = WEIGHT_PRESENTATION) ∧
    (c + 1 ≤ 4 → compute_final_score s p (c + 1) - compute_final_score s p c = WEIGHT_CONTRIBUTION) ∧
    compute_final_score s p c
      = INTERCEPT + WEIGHT_SOUNDNESS * s + WEIGHT_PRESENTATION * p + WEIGHT_CONTRIBUTION * c ∧
    WEIGHT_SOUNDNESS = 7134/10000 ∧ WEIGHT_PRESENTATION = 4242/10000 ∧
    WEIGHT_CONTRIBUTION = 10588/10000 ∧
    WEIGHT_PRESENTATION < WEIGHT_SOUNDNESS ∧ WEIGHT_SOUNDNESS < WEIGHT_CONTRIBUTION := by
  refine ⟨?_, ?_, ?_, compute_eq_raw s p c hs1 hs4 hp1 hp4 hc1 hc4, rfl, rfl, rfl,
    by norm_num [WEIGHT_PRESENTATION, WEIGHT_SOUNDNESS],
    by norm_num [WEIGHT_SOUNDNESS, WEIGHT_CONTRIBUTION]⟩
  · intro h
    rw [compute_eq_raw (s + 1) p c (by linarith) h hp1 hp4 hc1 hc4,
      compute_eq_raw s p c hs1 hs4 hp1 hp4 hc1 hc4]
    ring
  · intro h
    rw [compute_eq_raw s (p + 1) c hs1 hs4 (by linarith) h hc1 hc4,
      compute_eq_raw s p c hs1 hs4 hp1 hp4 hc1 hc4]
    ring
  · intro h
    rw [compute_eq_raw s p (c + 1) hs1 hs4 hp1 hp4 (by linarith) h,
      compute_eq_raw s p c hs1 hs4 hp1 hp4 hc1 hc4]
    ring

/-- Witness for C4: the deltas at the concrete dimension point (2, 2, 2). -/
theorem score_delta_weights_witness :
    compute_final_score 3 2 2 - compute_final_score 2 2 2 = WEIGHT_SOUNDNESS ∧
    compute_final_score 2 3 2 - compute_final_score 2 2 2 = WEIGHT_PRESENTATION ∧
    compute_final_score 2 2 3 - compute_final_score 2 2 2 = WEIGHT_CONTRIBUTION := by
  have h := score_delta_weights 2 2 2 (by norm_num) (by norm_num) (by norm_num) (by norm_num)
    (by norm_num) (by norm_num)
  exact ⟨by have := h.1 (by norm_num); norm_num at this ⊢; linarith,
         by have := h.2.1 (by norm_num); norm_num at this ⊢; linarith,
         by have := h.2.2.1 (by norm_num); norm_num at this ⊢; linarith⟩

/-- C2: in the orchestrator's parallel fan-out, an exception in either task
leaves exactly that task's contribution absent (empty diagram list / no
review) and never disturbs the other task's result or aborts the run: the
collected pair is determined branchwise. -/
theorem fanout_partial_failure_isolation (gd gr : Bool)
    (diagTask : Except String (List GeneratedDiagram)) (revTask : Except String PeerReview) :
    collectFanOut (gatherFanOut gd gr diagTask revTask)
      = ((if gd then diagTask.toOption.getD [] else []),
         (if gr then revTask.toOption else none)) := by
  cases gd <;> cases gr <;> cases diagTask <;> cases revTask <;> rfl

/-- An unrecognized diagram type makes `_run_one` return `None`. -/
lemma runOne_none_of_unknown (od fmt : String) (content : ExtractedContent)
    (exts : String → Except String PBResult) (dtype : String)
    (h : dtype ∉ (["methodology", "architecture", "results"] : List String)) :
    runOne od fmt content exts dtype = none := by
  unfold runOne
  split <;> simp_all

/-- Source: `_run_pipeline` tags its diagram (success or fallback) with the
requested type. -/
lemma runPipeline_dtype (od fmt dt : String) (content : ExtractedContent) (ctx : String)
    (ext : Except String PBResult) :
    (runPipeline od fmt dt content ctx ext).1.diagram_type = dt := by
  unfold runPipeline
  cases ext with
  | ok r => by_cases hr : r.image_exists <;> simp [hr, generateFallbackDiagram]
  | error e => simp [generateFallbackDiagram]

/-- A produced `_run_one` result carries its own (recognized) type. -/
lemma runOne_some (od fmt : String) (content : ExtractedContent)
    (exts : String → Except String PBResult) (dtype : String)
    (p : GeneratedDiagram × List String) (h : runOne od fmt content exts dtype = some p) :
    p.1.diagram_type = dtype ∧ dtype ∈ (["methodology", "architecture", "results"] : List String) := by
  unfold runOne at h
  split at h <;> simp_all <;>
    exact (by rw [← h]; exact runPipeline_dtype ..)

/-- Every diagram returned by `generate` stems from some requested type's
`_run_one`. -/
lemma generate_mem (od fmt : String) (content : ExtractedContent)
    (exts : String → Except String PBResult) (types : List String) (d : GeneratedDiagram)
    (hd : d ∈ (generate od fmt content types exts).1) :
    ∃ t ∈ types, ∃ w, runOne od fmt content exts t = some (d, w) := by
  induction types with
  | nil => simp [generate] at hd
  | cons t ts ih =>
    simp only [generate, List.foldr_cons] at hd
    rcases hres : runOne od fmt content exts t with _ | p
    · rw [hres] at hd
      obtain ⟨u, hu, w, hw⟩ := ih hd
      exact ⟨u, by simp [hu], w, hw⟩
    · rw [hres] at hd
      rcases List.mem_cons.mp hd with rfl | hd'
      · exact ⟨t, by simp, p.2, by simpa using hres⟩
      · obtain ⟨u, hu, w, hw⟩ := ih hd'
        exact ⟨u, by simp [hu], w, hw⟩

/-- C8: a requested diagram type outside the recognized set
`{methodology, architecture, results}` yields nothing: requesting it alone
produces an empty list (and the total `generate` function never raises),
and no diagram of that type ever appears in any `generate` result. -/
theorem unknown_diagram_type_skipped (od fmt : String) (content : ExtractedContent)
    (exts : String → Except String PBResult) (dtype : String)
    (h : dtype ∉ (["methodology", "architecture", "results"] : List String)) :
    (generate od fmt content [dtype] exts).1 = [] ∧
    ∀ types : List String, ∀ d ∈ (generate od fmt content types exts).1,
      d.diagram_type ≠ dtype := by
  constructor
  · simp [generate, runOne_none_of_unknown od fmt content exts dtype h]
  · intro types d hd heq
    obtain ⟨t, _ht, w, hw⟩ := generate_mem od fmt content exts types d hd
    obtain ⟨hty, hmem⟩ := runOne_some od fmt content exts t (d, w) hw
    have hty2 : d.diagram_type = t := hty
    have hdt : dtype = t := by rw [← heq, hty2]
    exact h (by rw [hdt]; exact hmem)

/-- Witness for C8: the unrecognized type `"bogus"`. -/
theorem unknown_diagram_type_skipped_witness :
    (generate "out" "png" {} ["bogus"] (fun _ => Except.error "x")).1 = [] ∧
    ∀ types : List String,
      ∀ d ∈ (generate "out" "png" ({} : ExtractedContent) types (fun _ => Except.error "x")).1,
        d.diagram_type ≠ "bogus" :=
  unknown_diagram_type_skipped "out" "png" {} (fun _ => Except.error "x") "bogus" (by decide)

/-- A small concrete document shared by the diagram counterexamples and
witnesses. -/
def demoContent : ExtractedContent :=
  { full_text := "Paper body text."
    title := "Demo Paper"
    abstract := "An abstract."
    sections := [{ title := "Method", content := "We do things." }] }

/-- C1 counterexample: the external call can raise an exception whose
`str(exc)` is empty (e.g. `Exception()`), and `_run_pipeline` stores exactly
that text — the single returned diagram is a fallback with an *empty*
`error`, refuting the claimed "non-empty error text". -/
theorem diagram_fallback_error_counterexample :
    ((generate "./out" "png" demoContent ["methodology"] (fun _ => Except.error "")).1.map
      (fun d => (d.diagram_type, d.is_fallback, d.error))) = [("methodology", true, "")] := rfl

/-- C1 (amended): for every recognized diagram type whose external call
raises, `generate` returns exactly one `GeneratedDiagram`, a fallback
carrying the raised exception's text verbatim (hence non-empty whenever the
exception's text is) with its image artifact written at the output path. -/
theorem diagram_fallback_on_exception (od fmt : String) (content : ExtractedContent) (e : String)
    (dtype : String) (h : dtype ∈ (["methodology", "architecture", "results"] : List String)) :
    ∃ d : GeneratedDiagram,
      (generate od fmt content [dtype] (fun _ => Except.error e)).1 = [d] ∧
      d.is_fallback = true ∧ d.error = e ∧
      d.image_path = outputPath od dtype fmt ∧
      outputPath od dtype fmt ∈ (generate od fmt content [dtype] (fun _ => Except.error e)).2 ∧
      (e ≠ "" → d.error ≠ "") := by
  have h3 : dtype = "methodology" ∨ dtype = "architecture" ∨ dtype = "results" := by
    simpa using h
  rcases h3 with rfl | rfl | rfl <;>
    exact ⟨_, rfl, rfl, rfl, rfl, List.Mem.head _, fun hh => hh⟩

/-- Witness for C1: the `"architecture"` type with exception text `"boom"`. -/
theorem diagram_fallback_on_exception_witness :
    ∃ d : GeneratedDiagram,
      (generate "out" "png" demoContent ["architecture"] (fun _ => Except.error "boom")).1 = [d] ∧
      d.is_fallback = true ∧ d.error = "boom" ∧
      d.image_path = outputPath "out" "architecture" "png" ∧
      outputPath "out" "architecture" "png"
        ∈ (generate "out" "png" demoContent ["architecture"] (fun _ => Except.error "boom")).2 ∧
      ("boom" ≠ "" → d.error ≠ "") :=
  diagram_fallback_on_exception "out" "png" demoContent "boom" "architecture" (by decide)

/-! ### C5/C10: equation-id counter lemmas -/

lemma mkDisplayEq_id (text : List Char) (c : ℕ) (m : RMatch) :
    (mkDisplayEq text c m).id = fmtEqId c := rfl

lemma mkInlineEq_id (text : List Char) (c : ℕ) (m : RMatch) :
    (mkInlineEq text c m).id = fmtEqId c := rfl

lemma numberDisplay_mem_id (text : List Char) (ms : List RMatch) :
    ∀ c, ∀ e ∈ numberDisplay text c ms,
      c < decodeEqId e.id ∧ decodeEqId e.id ≤ c + ms.length := by
  induction ms with
  | nil => intro c e he; simp [numberDisplay] at he
  | cons m tl ih =>
    intro c e he
    rcases List.mem_cons.mp he with rfl | h
    · rw [mkDisplayEq_id, decodeEqId_fmtEqId]
      simp only [List.length_cons]
      omega
    · have := ih (c + 1) e h
      simp only [List.length_cons]
      omega

lemma numberDisplay_chain (text : List Char) (ms : List RMatch) :
    ∀ c, List.Chain' (fun a b => decodeEqId a.id < decodeEqId b.id) (numberDisplay text c ms) := by
  induction ms with
  | nil => intro c; simp [numberDisplay]
  | cons m tl ih =>
    intro c
    rw [numberDisplay, List.chain'_cons']
    refine ⟨?_, ih (c + 1)⟩
    intro b hb
    have hmem := List.mem_of_mem_head? hb
    have := (numberDisplay_mem_id text tl (c + 1) b hmem).1
    rw [mkDisplayEq_id, decodeEqId_fmtEqId]
    omega

lemma numberInline_mem_id (text : List Char) (ms : List RMatch) :
    ∀ c, ∀ e ∈ numberInline text c ms,
      c < decodeEqId e.id ∧ decodeEqId e.id ≤ c + ms.length := by
  induction ms with
  | nil => intro c e he; simp [numberInline] at he
  | cons m tl ih =>
    intro c e he
    rw [numberInline] at he
    by_cases hshort : (pyStrip m.group).length < 3
    · rw [if_pos hshort] at he
      have := ih (c + 1) e he
      simp only [List.length_cons]
      omega
    · rw [if_neg hshort] at he
      rcases List.mem_cons.mp he with rfl | h
      · rw [mkInlineEq_id, decodeEqId_fmtEqId]
        simp only [List.length_cons]
        omega
      · have := ih (c + 1) e h
        simp only [List.length_cons]
        omega

lemma numberInline_chain (text : List Char) (ms : List RMatch) :
    ∀ c, List.Chain' (fun a b => decodeEqId a.id < decodeEqId b.id) (numberInline text c ms) := by
  induction ms with
  | nil => intro c; simp [numberInline]
  | cons m tl ih =>
    intro c
    rw [numberInline]
    by_cases hshort : (pyStrip m.group).length < 3
    · rw [if_pos hshort]; exact ih (c + 1)
    · rw [if_neg hshort, List.chain'_cons']
      refine ⟨?_, ih (c + 1)⟩
      intro b hb
      have hmem := List.mem_of_mem_head? hb
      have := (numberInline_mem_id text tl (c + 1) b hmem).1
      rw [mkInlineEq_id, decodeEqId_fmtEqId]
      omega

lemma numberDisplay_not_inline (text : List Char) (ms : List RMatch) :
    ∀ c, ∀ e ∈ numberDisplay text c ms, e.is_inline = false := by
  induction ms with
  | nil => intro c e he; simp [numberDisplay] at he
  | cons m tl ih =>
    intro c e he
    rcases List.mem_cons.mp he with rfl | h
    · rfl
    · exact ih (c + 1) e h

lemma numberInline_inline (text : List Char) (ms : List RMatch) :
    ∀ c, ∀ e ∈ numberInline text c ms, e.is_inline = true := by
  induction ms with
  | nil => intro c e he; simp [numberInline] at he
  | cons m tl ih =>
    intro c e he
    rw [numberInline] at he
    by_cases hshort : (pyStrip m.group).length < 3
    · rw [if_pos hshort] at he; exact ih (c + 1) e he
    · rw [if_neg hshort] at he
      rcases List.mem_cons.mp he with rfl | h
      · rfl
      · exact ih (c + 1) e h

/-- C5: for every input text, one counter is shared across all display
matchers and the inline matcher, so the returned equations carry pairwise
distinct ids, strictly increasing (numerically) in list order, with all
display-pass equations numbered before all inline-pass equations. -/
theorem equation_ids_single_counter (markdown_text : String) :
    List.Chain' (fun a b => decodeEqId a.id < decodeEqId b.id) (extract_equations markdown_text) ∧
    List.Pairwise (fun a b => a.id ≠ b.id) (extract_equations markdown_text) ∧
    ∃ k, (∀ e ∈ (extract_equations markdown_text).take k, e.is_inline = false) ∧
         (∀ e ∈ (extract_equations markdown_text).drop k, e.is_inline = true) := by
  have hunfold : extract_equations markdown_text
      = numberDisplay markdown_text.data 0 (displayMatches markdown_text.data)
        ++ numberInline markdown_text.data (displayMatches markdown_text.data).length
            (finditerInline markdown_text.data) := rfl
  set t := markdown_text.data
  set dms := displayMatches t
  set ims := finditerInline t
  have hchain : List.Chain' (fun a b => decodeEqId a.id < decodeEqId b.id)
      (numberDisplay t 0 dms ++ numberInline t dms.length ims) := by
    rw [List.chain'_append]
    refine ⟨numberDisplay_chain t dms 0, numberInline_chain t ims dms.length, ?_⟩
    intro x hx y hy
    have hx' := (numberDisplay_mem_id t dms 0 x (List.mem_of_mem_getLast? hx)).2
    have hy' := (numberInline_mem_id t ims dms.length y (List.mem_of_mem_head? hy)).1
    omega
  refine ⟨hunfold ▸ hchain, ?_, ?_⟩
  · rw [hunfold]
    haveI : IsTrans Equation (fun a b => decodeEqId a.id < decodeEqId b.id) :=
      ⟨fun _ _ _ h1 h2 => lt_trans h1 h2⟩
    have hp := List.chain'_iff_pairwise.mp hchain
    exact hp.imp (fun {a b} hlt heq => by rw [heq] at hlt; exact lt_irrefl _ hlt)
  · refine ⟨(numberDisplay t 0 dms).length, ?_, ?_⟩
    · intro e he
      rw [hunfold, List.take_left] at he
      exact numberDisplay_not_inline t dms 0 e he
    · intro e he
      rw [hunfold, List.drop_left] at he
      exact numberInline_inline t ims dms.length e he

/-! ### C10 -/

lemma enumFrom_shift {α : Type} (n : ℕ) (l : List α) :
    List.enumFrom (n + 1) l = (List.enumFrom n l).map (fun p => (p.1 + 1, p.2)) := by
  induction l generalizing n with
  | nil => rfl
  | cons a tl ih =>
    show (n + 1, a) :: List.enumFrom (n + 2) tl = (n + 1, a) :: _
    rw [ih (n + 1)]

def gapText : String := "We use $abc$ and $x$ and $def$ here."

/-- C10: in the inline pass the shared counter is incremented before the
minimum-length guard, so the equation built from the `j`-th inline match
(1-based) always gets id `counter_start + j`, independent of how many
earlier matches were discarded — emitted ids are strictly increasing but
not necessarily consecutive, as the concrete text with a too-short middle
match (`$x$`) shows: ids `eq_001`, `eq_003`. -/
theorem inline_counter_gap :
    (∀ (text : List Char) (c : ℕ) (ms : List RMatch),
      numberInline text c ms = (List.enumFrom 1 ms).filterMap (fun p =>
        if (pyStrip p.2.group).length < 3 then none
        else some (mkInlineEq text (c + p.1) p.2))) ∧
    (extract_equations gapText).map (fun e => (e.id, e.is_inline, e.latex))
      = [("eq_001", true, "abc"), ("eq_003", true, "def")] := by
  constructor
  · intro text c ms
    induction ms generalizing c with
    | nil => rfl
    | cons m tl ih =>
      have hshift : List.enumFrom 2 tl = (List.enumFrom 1 tl).map (fun p => (p.1 + 1, p.2)) :=
        enumFrom_shift 1 tl
      have hcomp : ((fun p : ℕ × RMatch =>
            if (pyStrip p.2.group).length < 3 then none
            else some (mkInlineEq text (c + p.1) p.2))
          ∘ (fun p : ℕ × RMatch => (p.1 + 1, p.2)))
          = (fun p : ℕ × RMatch =>
            if (pyStrip p.2.group).length < 3 then none
            else some (mkInlineEq text (c + 1 + p.1) p.2)) := by
        funext p
        simp only [Function.comp]
        by_cases hs : (pyStrip p.2.group).length < 3
        · simp [hs]
        · have harith : c + (p.1 + 1) = c + 1 + p.1 := by omega
          simp only [if_neg hs, harith]
      show numberInline text c (m :: tl)
        = List.filterMap _ ((1, m) :: List.enumFrom 2 tl)
      rw [List.filterMap_cons, hshift, List.filterMap_map, hcomp, ← ih (c + 1)]
      by_cases hs : (pyStrip m.group).length < 3
      · simp only [numberInline, hs, if_pos hs, if_true]
      · simp only [numberInline, hs, if_neg hs, if_false]
  · decide

/-! ### C6 -/

/-- Representative text of the C6 shape: two `$$...$$` blocks and two
standalone `$...$` tokens (contents ≥ 3 chars) inside one section. -/
def c6TextA : String :=
  "## Model\n\nWe define $$E = mc^2$$ and the loss $$a+b=c$$ here, with inline $x_i + y$ and also $p q r$ at the end.\n"

/-- A second representative text with the inline tokens interleaved between
the display blocks. -/
def c6TextB : String :=
  "# S\n\n$ab c$ then $$X = Y$$ middle $zz w$ tail $$P - Q$$\n"

/-- C6: on texts with exactly two `$$...$$` blocks and exactly two standalone
`$...$` tokens (each ≥ 3 chars) within one section, extraction returns
exactly 2 display (`is_inline=false`) and exactly 2 inline equations, 4 in
total — the display blocks are not additionally matched by the inline
matcher (its `(?<!\$)...(?!\$)` lookarounds refuse doubled dollars). -/
theorem display_inline_partition_counts :
    ((extract_equations c6TextA).filter (fun e => e.is_inline = false)).length = 2 ∧
    ((extract_equations c6TextA).filter (fun e => e.is_inline = true)).length = 2 ∧
    (extract_equations c6TextA).length = 4 ∧
    (extract_equations c6TextA).map (fun e => (e.latex, e.is_inline))
      = [("E = mc^2", false), ("a+b=c", false), ("x_i + y", true), ("p q r", true)] ∧
    ((extract_equations c6TextB).filter (fun e => e.is_inline = false)).length = 2 ∧
    ((extract_equations c6TextB).filter (fun e => e.is_inline = true)).length = 2 ∧
    (extract_equations c6TextB).length = 4 ∧
    (extract_equations c6TextB).map (fun e => (e.latex, e.is_inline))
      = [("X = Y", false), ("P - Q", false), ("ab c", true), ("zz w", true)] := by
  refine ⟨?_, ?_, ?_, ?_, ?_, ?_, ?_, ?_⟩ <;> decide

/-! ### C7 -/

/-- Blocks with no table-typed entry (the primary pass finds nothing). -/
def c7Blocks : List Block := [{ type := some "figure" }]

/-- A well-formed 3-line markdown pipe table: header row (3 pipes), valid
separator row, one data row. -/
def c7Md : String := "| A | B |\n|---|---|\n| 1 | 2 |"

/-- C7: the text-pattern fallback is used iff the block-derived table list is
empty and the markdown text is non-empty (never merged with the primary
result); and on a well-formed 3-line pipe table with no table blocks it
returns exactly one `Table` with `rows = 3 - 2 = 1` (table lines minus
header and separator) and `cols = 3 - 1 = 2` (header pipe count minus 1). -/
theorem tables_fallback_two_path (blocks : List Block) (md : String) :
    (primaryTables blocks ≠ [] → extract_tables blocks md = primaryTables blocks) ∧
    (md = "" → extract_tables blocks md = primaryTables blocks) ∧
    (primaryTables blocks = [] → md ≠ "" →
      extract_tables blocks md = extractTablesFromMarkdown md) ∧
    extract_tables c7Blocks c7Md
      = [{ id := "table_001", content := "| A | B |\n|---|---|\n| 1 | 2 |",
           caption := none, «section» := "", rows := some 1, cols := some 2 }] := by
  refine ⟨?_, ?_, ?_, by decide⟩
  · intro h
    have he : (primaryTables blocks).isEmpty = false := by
      cases hp : primaryTables blocks with
      | nil => exact absurd hp h
      | cons a l => rfl
    simp [extract_tables, he]
  · intro h
    subst h
    simp [extract_tables]
  · intro h1 h2
    simp [extract_tables, h1, h2]

/-- Witness for C7: fallback really selected on empty primary result and
non-empty markdown; primary result kept when the markdown is empty. -/
theorem tables_fallback_two_path_witness :
    (extract_tables ([] : List Block) "" = primaryTables []) ∧
    (extract_tables c7Blocks c7Md = extractTablesFromMarkdown c7Md) :=
  ⟨(tables_fallback_two_path [] "").2.1 rfl,
   (tables_fallback_two_path c7Blocks c7Md).2.2.1 (by decide) (by decide)⟩

/-! ### C9 -/

/-- A `tierScan` result always passed the `_distinct` check. -/
lemma tierScan_sound (a : List Char) (p : Section → Bool) :
    ∀ ss t, tierScan a p ss = some t → distinctFromAbstract a t = true := by
  intro ss
  induction ss with
  | nil => intro t h; simp [tierScan] at h
  | cons s tl ih =>
    intro t h
    simp only [tierScan] at h
    by_cases hp : p s
    · rw [if_pos hp] at h
      by_cases hd : distinctFromAbstract a (pyStrip (s.content.data.take 500)) = true
      · rw [if_pos hd] at h
        obtain rfl := Option.some.inj h
        exact hd
      · rw [if_neg hd] at h
        exact ih t h
    · rw [if_neg hp] at h
      exact ih t h

lemma orElse_eq_some {α : Type} (o : Option α) (f : Unit → Option α) (x : α)
    (h : o.orElse f = some x) : o = some x ∨ f () = some x := by
  cases o <;> simp_all [Option.orElse]

/-- Unpacking `_distinct`. -/
lemma distinct_unpack (a t : List Char) (h : distinctFromAbstract a t = true) :
    pyStrip t ≠ [] ∧ (pyStrip t).take 200 ≠ a.take 200 := by
  simp only [distinctFromAbstract, Bool.and_eq_true, Bool.not_eq_true',
    decide_eq_true_eq, List.isEmpty_eq_false] at h
  exact h

/-- A small document whose cascades bottom out in the unguarded abstract
fallback. -/
def c9Content : ExtractedContent := { abstract := "Short abstract." }

/-- C9 counterexample: with a non-empty abstract, empty full text and no
sections, tiers 1–3 fail and `_extract_methodology_summary` returns
`abstract[:500]` itself — a non-empty summary whose first 200 chars equal
the abstract's first 200 chars, refuting "never begins with the same 200
characters as the abstract". -/
theorem summary_duplicates_abstract_counterexample :
    c9Content.abstract ≠ "" ∧ extractMethodologySummary c9Content ≠ "" ∧
    (extractMethodologySummary c9Content).data.take 200
      = c9Content.abstract.data.take 200 := by
  refine ⟨?_, ?_, ?_⟩ <;> decide

/-- C9 (amended): every candidate accepted at tiers 1–3 of either cascade
(title-keyword, content-keyword, positional) passed `_distinct`: the
returned summary is then non-blank and its first 200 chars differ from the
(stripped) abstract's first 200 chars.  The tier-4 raw full-text slice and
the final `abstract[:500]` fallback are returned without that check. -/
theorem summary_tier_candidates_distinct (content : ExtractedContent) (t : List Char) :
    (methodologyTier123 content = some t →
      extractMethodologySummary content = String.mk t ∧ pyStrip t ≠ [] ∧
      (pyStrip t).take 200 ≠ (pyStrip content.abstract.data).take 200) ∧
    (resultsTier123 content = some t →
      extractResultsSummary content = String.mk t ∧ pyStrip t ≠ [] ∧
      (pyStrip t).take 200 ≠ (pyStrip content.abstract.data).take 200) := by
  constructor
  · intro h
    refine ⟨by simp [extractMethodologySummary, h], ?_⟩
    have hd : distinctFromAbstract (pyStrip content.abstract.data) t = true := by
      simp only [methodologyTier123] at h
      rcases orElse_eq_some _ _ _ h with h1 | h1
      · exact tierScan_sound _ _ _ _ h1
      · rcases orElse_eq_some _ _ _ h1 with h2 | h2
        · exact tierScan_sound _ _ _ _ h2
        · by_cases hl : content.sections.length > 1
          · rw [if_pos hl] at h2
            exact tierScan_sound _ _ _ _ h2
          · rw [if_neg hl] at h2
            exact absurd h2 (by simp)
    exact distinct_unpack _ _ hd
  · intro h
    refine ⟨by simp [extractResultsSummary, h], ?_⟩
    have hd : distinctFromAbstract (pyStrip content.abstract.data) t = true := by
      simp only [resultsTier123] at h
      rcases orElse_eq_some _ _ _ h with h1 | h1
      · exact tierScan_sound _ _ _ _ h1
      · rcases orElse_eq_some _ _ _ h1 with h2 | h2
        · exact tierScan_sound _ _ _ _ h2
        · by_cases hl : content.sections.length ≥ 3
          · rw [if_pos hl] at h2
            exact tierScan_sound _ _ _ _ h2
          · rw [if_neg hl] at h2
            exact absurd h2 (by simp)
    exact distinct_unpack _ _ hd

/-- A document where tier 1 (title keyword "method") fires. -/
def c9TierContent : ExtractedContent :=
  { abstract := "Other text.",
    sections := [{ title := "Method", content := "We do things differently here." }] }

/-- Witness for the amended C9: a tier-1 candidate, distinct from the
abstract, is returned as the methodology summary. -/
theorem summary_tier_candidates_distinct_witness :
    extractMethodologySummary c9TierContent
        = String.mk "We do things differently here.".data ∧
    pyStrip "We do things differently here.".data ≠ [] ∧
    (pyStrip "We do things differently here.".data).take 200
      ≠ (pyStrip c9TierContent.abstract.data).take 200 :=
  (summary_tier_candidates_distinct c9TierContent
    "We do things differently here.".data).1 (by decide)

end ResearchAnalyser
